import Mathlib

/-!
# Verification of the CATHe data pipeline scripts

Shallow embedding of the Python sources of the CATHe repository:

* `src/all/get_3Di/get_3Di_sequences.py` — PDB download, residue-level
  trimming, sequence verification, foldseek orchestration, FASTA merge;
* `src/cathe-predict/predict_embed.py` — embedding driver;
* `src/all/models/t5/logreg_prott5.py` — dataset assembly for the
  logistic-regression classifier;
* `src/all/models/TM_Vec/ann_TM_Vec.py` — the batch generator
  `bm_generator`.

Python exceptions are modelled by an explicit error type and `Except`;
the filesystem is an association list from paths to file contents; HTTP
downloads and external subprocesses (foldseek) are oracles passed as
function arguments.
-/

set_option autoImplicit false

namespace CATHe

/-- Python exceptions that the scripts raise or catch. -/
inductive PyExc where
  | httpError (msg : String)
  | valueError (msg : String)
  | indexError (msg : String)
  | attributeError (msg : String)
  | fileNotFoundError (msg : String)
  | exception (msg : String)
deriving DecidableEq, Repr

/-! ## `predict_embed.py` -/

/-- Observable calls made by `predict_embed.main` (its side effects). -/
inductive Step where
  | embedSeq
  | embed3Di
  | printInvalid
deriving DecidableEq, Repr

/-- The namespace produced by `predict_embed.py`'s argument parser: it
defines exactly the attributes `model` and `input_type`
(`--model`, `--input_type`), and no others. -/
structure Args where
  model : String
  input_type : String
deriving DecidableEq, Repr

/-- Attribute access `args.<name>` on the parsed namespace: only `model`
and `input_type` are defined; any other attribute raises
`AttributeError`. -/
def pyGetattr (a : Args) (name : String) : Except PyExc String :=
  if name = "model" then .ok a.model
  else if name = "input_type" then .ok a.input_type
  else .error (.attributeError name)

/-- `predict_embed.main`: dispatch on `args.input_type`; returns the list
of pipeline steps executed together with the final outcome (`.error`
means an uncaught exception propagates out of `main`).
In the `AA+3Di` branch the source runs `embed_sequence()` and then
evaluates `args.pdb_path` before calling `embed_3Di`. -/
def predictEmbedMain (a : Args) : List Step × Except PyExc Unit :=
  if a.input_type = "AA" then
    ([.embedSeq], .ok ())
  else if a.input_type = "AA+3Di" then
    match pyGetattr a "pdb_path" with
    | .error e => ([.embedSeq], .error e)
    | .ok _ => ([.embedSeq, .embed3Di], .ok ())
  else
    ([.printInvalid], .ok ())

/-! ## `logreg_prott5.py` — split assembly

For each split the script reads the SF labels from a CSV, loads the SF
embedding archive and the `other` embedding archive, concatenates the
archives into `X`, and appends the literal label `"other"` once per row
of the `other` archive onto `y`.  The same code shape is repeated for
the train, validation and test splits (lines 14-25, 28-40, 43-55). -/

/-- One split of `logreg_prott5.py`:
`X = np.concatenate((X_sf, X_other)); for i in range(len(X_other)):
y.append('other')`. -/
def buildSplit {E : Type} (y_sf : List String) (x_sf x_other : List E) :
    List E × List String :=
  (x_sf ++ x_other, y_sf ++ List.replicate x_other.length "other")

/-! ## `get_3Di_sequences.py` — data model

A parsed PDB structure (`Bio.PDB`): a structure holds models, a model
holds chains, a chain holds residues.  A residue is recorded by the
one-letter code `seq1(residue.resname)` and by whether it is a standard
residue (`residue.id[0] == ' '`).  Residues are identified by their
position `(model index, chain index, residue index)` in the structure,
matching Python object identity inside one parsed structure. -/

structure Residue where
  /-- `seq1(residue.resname)`: the one-letter code; `'X'` for unknown. -/
  resChar : Char
  /-- `residue.id[0] == ' '`: standard (non-hetero) residue. -/
  standard : Bool
deriving DecidableEq, Repr

structure PDBChain where
  id : Char
  residues : List Residue
deriving DecidableEq, Repr

structure PDBModel where
  id : Int
  chains : List PDBChain
deriving DecidableEq, Repr

structure PDBStructure where
  models : List PDBModel
deriving DecidableEq, Repr

/-- Position of a residue in a structure: model, chain and residue index. -/
abbrev ResPath := Nat × Nat × Nat

/-- `clean_sequence`: `sequence.replace('X', '')`. -/
def clean_sequence (s : List Char) : List Char :=
  s.filter (fun c => c ≠ 'X')

/-- `compare_sequences`: equality of the two sequences. -/
def compare_sequences (csv_sequence pdb_sequence : List Char) : Bool :=
  csv_sequence = pdb_sequence

/-- The residue loop of `trim_pdb` over one matching chain: greedily match
residues against `sequence` starting at `seq_index`, collecting matched
residue positions; `break` out of the residue loop once
`seq_index == len(sequence)`. -/
def trimResidueLoop (sequence : List Char) (mi ci : Nat) :
    List Residue → Nat → Nat → List ResPath → Nat × List ResPath
  | [], _, seqIndex, kept => (seqIndex, kept)
  | r :: rest, ri, seqIndex, kept =>
    let st :=
      if h : seqIndex < sequence.length then
        if r.resChar = sequence.get ⟨seqIndex, h⟩ then
          (seqIndex + 1, kept ++ [(mi, ci, ri)])
        else (seqIndex, kept)
      else (seqIndex, kept)
    if st.1 = sequence.length then st
    else trimResidueLoop sequence mi ci rest (ri + 1) st.1 st.2

/-- The chain loop of `trim_pdb` over one matching model: run the residue
loop on every chain whose id is `chain_id`, carrying `seq_index` and the
kept set across chains. -/
def trimChainLoop (sequence : List Char) (chain_id : Char) (mi : Nat) :
    List PDBChain → Nat → Nat → List ResPath → Nat × List ResPath
  | [], _, seqIndex, kept => (seqIndex, kept)
  | c :: rest, ci, seqIndex, kept =>
    let st :=
      if c.id = chain_id then
        trimResidueLoop sequence mi ci c.residues 0 seqIndex kept
      else (seqIndex, kept)
    trimChainLoop sequence chain_id mi rest (ci + 1) st.1 st.2

/-- The model loop of `trim_pdb`: run the chain loop on every model whose
id is `model_id`. -/
def trimModelLoop (sequence : List Char) (chain_id : Char) (model_id : Int) :
    List PDBModel → Nat → Nat → List ResPath → Nat × List ResPath
  | [], _, seqIndex, kept => (seqIndex, kept)
  | m :: rest, mi, seqIndex, kept =>
    let st :=
      if m.id = model_id then
        trimChainLoop sequence chain_id mi m.chains 0 seqIndex kept
      else (seqIndex, kept)
    trimModelLoop sequence chain_id model_id rest (mi + 1) st.1 st.2

/-- The set `seq_residues` built by `trim_pdb`, as residue positions. -/
def keptResidues (s : PDBStructure) (sequence : List Char) (chain_id : Char)
    (model_id : Int) : List ResPath :=
  (trimModelLoop sequence chain_id model_id s.models 0 0 []).2

/-- `io.save(path, select=TrimSelect(seq_residues))` followed by reparsing
the written file: the writer emits exactly the accepted residues; a chain
none of whose residues is accepted produces no record, so it is absent
from the reparsed file, and likewise a model with no remaining chains. -/
def writeTrimmed (s : PDBStructure) (kept : List ResPath) : PDBStructure :=
  { models :=
      (s.models.enum.map (fun mp =>
        PDBModel.mk mp.2.id
          ((mp.2.chains.enum.map (fun cp =>
            PDBChain.mk cp.2.id
              ((cp.2.residues.enum.filter
                (fun rp => (mp.1, cp.1, rp.1) ∈ kept)).map
                (fun rp => rp.2)))).filter
            (fun c => c.residues ≠ [])))).filter
        (fun m => m.chains ≠ []) }

/-- `extract_sequence_from_pdb`: concatenate, in chain order, the
one-letter codes of the standard residues of chain `chain_id` in model
`model_id`; raise `ValueError` when no such chain is found. -/
def extract_sequence_from_pdb (s : PDBStructure) (chain_id : Char)
    (model_id : Int) : Except PyExc (List Char) :=
  let res := s.models.foldl (fun (acc : List Char × Bool) m =>
    if m.id = model_id then
      m.chains.foldl (fun acc c =>
        if c.id = chain_id then
          (acc.1 ++ (c.residues.filter (fun r => r.standard)).map
            (fun r => r.resChar), true)
        else acc) acc
    else acc) ([], false)
  if res.2 then .ok res.1
  else .error (.valueError "Chain of model not found in PDB file")

/-- `pdb_file_path.replace('.pdb', '_trimmed.pdb')`. -/
def trimmedPath (pdb_file_path : String) : String :=
  pdb_file_path.replace ".pdb" "_trimmed.pdb"

/-- `trim_pdb`: select the residues matching `sequence`, write the trimmed
file, re-extract the sequence from it, and raise `ValueError` unless the
extracted sequence equals `clean_sequence(sequence)`.  Returns the
trimmed file's path together with its (reparsed) content. -/
def trim_pdb (pdb_file_path : String) (s : PDBStructure) (sequence : List Char)
    (chain_id : Char) (model_id : Int) :
    Except PyExc (String × PDBStructure) :=
  let kept := keptResidues s sequence chain_id model_id
  let trimmed := writeTrimmed s kept
  let trimmed_pdb_file_path := trimmedPath pdb_file_path
  match extract_sequence_from_pdb trimmed chain_id model_id with
  | .error e => .error e
  | .ok pdb_sequence =>
    if compare_sequences (clean_sequence sequence) pdb_sequence then
      .ok (trimmed_pdb_file_path, trimmed)
    else
      .error (.valueError "Sequence mismatch")

/-! ## `get_3Di_sequences.py` — `download_and_trim_pdb` -/

/-- String indexing `s[i]` for a non-negative literal index: raises
`IndexError` when the index is out of range. -/
def pyIndex (s : List Char) (i : Nat) : Except PyExc Char :=
  if h : i < s.length then .ok (s.get ⟨i, h⟩)
  else .error (.indexError "string index out of range")

/-- Whether `cs` has two consecutive underscores. -/
def hasDoubleUnderscore : List Char → Bool
  | '_' :: '_' :: _ => true
  | _ :: rest => hasDoubleUnderscore rest
  | [] => false

/-- Numeric value of a list of decimal digits. -/
def digitsVal (ds : List Char) : Nat :=
  ds.foldl (fun acc c => acc * 10 + (c.toNat - 48)) 0

/-- The digit part of a Python integer literal after the optional sign:
non-empty, decimal digits with single underscores allowed strictly
between digits. -/
def pyIntBody (cs : List Char) : Option Nat :=
  if cs ≠ [] ∧ cs.all (fun c => c.isDigit || c = '_') ∧
      cs.head? ≠ some '_' ∧ cs.getLast? ≠ some '_' ∧
      ¬ hasDoubleUnderscore cs then
    some (digitsVal (cs.filter (fun c => c ≠ '_')))
  else none

/-- Python `int(s)` on a string: optional surrounding whitespace, optional
sign, then a decimal digit body; raises `ValueError` otherwise. -/
def pyInt (s : List Char) : Except PyExc Int :=
  let t := ((s.dropWhile Char.isWhitespace).reverse.dropWhile
    Char.isWhitespace).reverse
  match t with
  | '+' :: rest =>
    match pyIntBody rest with
    | some n => .ok (n : Int)
    | none => .error (.valueError "invalid literal for int")
  | '-' :: rest =>
    match pyIntBody rest with
    | some n => .ok (-(n : Int))
    | none => .error (.valueError "invalid literal for int")
  | rest =>
    match pyIntBody rest with
    | some n => .ok (n : Int)
    | none => .error (.valueError "invalid literal for int")

/-- One row of the dataset CSV, with the columns the script reads. -/
structure Row where
  /-- The `'Unnamed: 0'` column, used as `sequence_id`. -/
  id : String
  /-- The `'Sequence'` column. -/
  sequence : List Char
  /-- The `'Domain'` column. -/
  domain : List Char
deriving DecidableEq, Repr

/-- The record built by `download_and_trim_pdb` for one row. -/
structure DownloadRecord where
  sequence_id : String
  pdb_file : Option String
deriving DecidableEq, Repr

/-- `os.path.join(output_dir, f"{sequence_id}_{pdb_id}.pdb")`. -/
def pdbFilePath (output_dir : String) (sequence_id : String)
    (pdb_id : List Char) : String :=
  output_dir ++ "/" ++ sequence_id ++ "_" ++ String.mk pdb_id ++ ".pdb"

/-- `download_and_trim_pdb(row, output_dir)`.  The HTTP download (together
with writing and reparsing the fetched file) is the oracle `http`:
`.error` covers an HTTP error raised by `raise_for_status` or any other
exception from the request, `.ok` gives the parsed structure.  The result
pairs the function's outcome with the number of HTTP GET requests issued
(`requests.get` appears exactly once, inside the `try` block).  Domain
parsing (`domain[4]`, `int(domain[5:])`) happens before the `try` block,
so its exceptions escape; every exception inside the `try` block is
caught and turned into a `{sequence_id, pdb_file: None}` record. -/
def download_and_trim_pdb (row : Row) (http : Except PyExc PDBStructure)
    (output_dir : String) : Except PyExc DownloadRecord × Nat :=
  let sequence := clean_sequence row.sequence
  let pdb_id := row.domain.take 4
  match pyIndex row.domain 4 with
  | .error e => (.error e, 0)
  | .ok chain =>
    match pyInt (row.domain.drop 5) with
    | .error e => (.error e, 0)
    | .ok model_id =>
      match http with
      | .error _ => (.ok ⟨row.id, none⟩, 1)
      | .ok s =>
        let pdb_file_path := pdbFilePath output_dir row.id pdb_id
        match trim_pdb pdb_file_path s sequence chain model_id with
        | .error _ => (.ok ⟨row.id, none⟩, 1)
        | .ok pt => (.ok ⟨row.id, some pt.1⟩, 1)

/-- A row whose `Domain` column parses: `domain[4]` and `int(domain[5:])`
both succeed. -/
def wellFormedDomain (row : Row) : Prop :=
  (pyIndex row.domain 4).isOk = true ∧
  (pyInt (row.domain.drop 5)).isOk = true

instance (row : Row) : Decidable (wellFormedDomain row) :=
  inferInstanceAs (Decidable (_ ∧ _))

/-- Whether some exception is raised inside the `try` block of
`download_and_trim_pdb` for a given row and download outcome: either the
download itself fails, or trimming (including sequence verification)
fails. -/
def tryBlockRaises (row : Row) (http : Except PyExc PDBStructure)
    (output_dir : String) (chain : Char) (model_id : Int) : Prop :=
  match http with
  | .error _ => True
  | .ok s =>
    ∃ e, trim_pdb (pdbFilePath output_dir row.id (row.domain.take 4)) s
      (clean_sequence row.sequence) chain model_id = .error e

/-! ## `get_3Di_sequences.py` — `process_dataset`

`process_dataset` submits one `download_and_trim_pdb` task per row of
the input to a `ThreadPoolExecutor(max_workers=20)` and collects the
results with `as_completed`, so the results arrive in an arbitrary
completion order — a permutation of the submitted tasks.  We model the
collection phase over the completion-ordered list of rows:
`future.result()` re-raises any exception the task raised, aborting the
collection. -/

/-- `max_workers` of the `ThreadPoolExecutor` in `process_dataset`. -/
def max_workers : Nat := 20

/-- Collect `future.result()` over tasks in completion order: the first
exception propagates out of `process_dataset`, otherwise every record is
appended. -/
def collectResults : List (Except PyExc DownloadRecord) →
    Except PyExc (List DownloadRecord)
  | [] => .ok []
  | r :: rest =>
    match r with
    | .error e => .error e
    | .ok rec =>
      match collectResults rest with
      | .error e => .error e
      | .ok recs => .ok (rec :: recs)

/-- The download phase of `process_dataset`: `order` is the completion
order of the futures (a permutation of the input rows); `http` gives each
row's download outcome.  Returns the list of records written to the
results CSV, or the exception that propagated out of `future.result()`. -/
def processDatasetResults (order : List Row)
    (http : Row → Except PyExc PDBStructure) (output_dir : String) :
    Except PyExc (List DownloadRecord) :=
  collectResults (order.map (fun r => (download_and_trim_pdb r (http r)
    output_dir).1))

/-- Total number of HTTP GET requests issued over one run of the download
phase of `process_dataset` (every submitted future runs, whether or not
another future's exception later aborts result collection). -/
def processDatasetGETCount (order : List Row)
    (http : Row → Except PyExc PDBStructure) (output_dir : String) : Nat :=
  (order.map (fun r => (download_and_trim_pdb r (http r) output_dir).2)).sum

/-! ## `get_3Di_sequences.py` — `run_command` and the foldseek phase -/

/-- Outcome of `subprocess.run(command, shell=True, capture_output=True)`. -/
structure CmdResult where
  returncode : Int
  stdout : String
  stderr : String
deriving DecidableEq, Repr

/-- `run_command`: raise `Exception("Command failed")` when the subprocess
exits non-zero, otherwise return its standard output. -/
def run_command (result : CmdResult) : Except PyExc String :=
  if result.returncode ≠ 0 then .error (.exception "Command failed")
  else .ok result.stdout

/-- A filesystem: an association list from paths to file contents; a
later write shadows earlier entries for the same path. -/
abbrev FS := List (String × String)

/-- Whether `path` exists in the filesystem. -/
def fsExists (fs : FS) (path : String) : Bool :=
  fs.any (fun e => e.1 = path)

/-- Read a file (`open(path).read()`): the most recent content. -/
def fsRead (fs : FS) (path : String) : Except PyExc String :=
  match fs.find? (fun e => e.1 = path) with
  | some e => .ok e.2
  | none => .error (.fileNotFoundError path)

/-- `open(path, 'w')` followed by writing `content`. -/
def fsWrite (fs : FS) (path content : String) : FS :=
  (path, content) :: fs

/-- Drop every entry for `path`. -/
def fsErase (fs : FS) (path : String) : FS :=
  fs.filter (fun e => e.1 ≠ path)

/-- `os.remove(path)`: raises `FileNotFoundError` when the path does not
exist. -/
def fsRemove (fs : FS) (path : String) : Except PyExc FS :=
  if fsExists fs path then .ok (fsErase fs path)
  else .error (.fileNotFoundError path)

/-- `for file in os.listdir(output_dir): os.remove(...)`: every listed
file exists, so this always succeeds; it drops every entry under the
directory. -/
def fsRemoveDirFiles (fs : FS) (dir : String) : FS :=
  fs.filter (fun e => ¬ e.1.startsWith (dir ++ "/"))

/-- The `try` block of `process_dataset` running the three foldseek
commands; `exec` is the subprocess oracle (a command may create files).
Any exception from `run_command` is caught and only printed, so this
phase always completes, returning the filesystem as the commands left
it. -/
def foldseekPhase (exec : String → FS → CmdResult × FS)
    (output_dir query_db query_db_ss_fasta : String) (fs : FS) : FS :=
  let r1 := exec ("foldseek createdb " ++ output_dir ++ " " ++ query_db) fs
  match run_command r1.1 with
  | .error _ => r1.2
  | .ok _ =>
    let r2 := exec ("foldseek lndb " ++ query_db ++ "_h " ++ query_db ++
      "_ss_h") r1.2
    match run_command r2.1 with
    | .error _ => r2.2
    | .ok _ =>
      let r3 := exec ("foldseek convert2fasta " ++ query_db ++ "_ss " ++
        query_db_ss_fasta) r2.2
      match run_command r3.1 with
      | .error _ => r3.2
      | .ok _ => r3.2

/-- The removal statements at the end of `process_dataset`, outside the
`try`/`except`: remove the four intermediate database files (each
`os.remove` raising if its target is missing), then every file of the
output directory. -/
def cleanupPhase (output_dir query_db : String) (fs : FS) :
    Except PyExc FS :=
  match fsRemove fs (query_db ++ "_a3m") with
  | .error e => .error e
  | .ok fs1 =>
    match fsRemove fs1 (query_db ++ "_ss") with
    | .error e => .error e
    | .ok fs2 =>
      match fsRemove fs2 (query_db ++ "_ss_h") with
      | .error e => .error e
      | .ok fs3 =>
        match fsRemove fs3 (query_db ++ "_h") with
        | .error e => .error e
        | .ok fs4 => .ok (fsRemoveDirFiles fs4 output_dir)

/-- The tail of `process_dataset` after the results CSV is written: the
guarded foldseek phase followed by the unguarded removal phase.
`.error` means an uncaught exception aborts `process_dataset`. -/
def processDatasetTail (exec : String → FS → CmdResult × FS)
    (output_dir query_db query_db_ss_fasta : String) (fs : FS) :
    Except PyExc FS :=
  cleanupPhase output_dir query_db
    (foldseekPhase exec output_dir query_db query_db_ss_fasta fs)

/-! ## `get_3Di_sequences.py` — the Train branch of `main` -/

/-- Path of the first half's FASTA file for the Train dataset. -/
def trainFastaFirst : String := "./data/Dataset/3Di/Train_first.fasta"

/-- Path of the second half's FASTA file for the Train dataset. -/
def trainFastaSecond : String := "./data/Dataset/3Di/Train_second.fasta"

/-- Path of the merged Train FASTA file. -/
def trainFastaFinal : String := "./data/Dataset/3Di/Train.fasta"

/-- The Train branch of `main`: split the dataset at `len(data) // 2`,
run `process_dataset` on each half (abstracted by the oracle `pipeline`,
which yields the FASTA content the foldseek pipeline produces for a list
of rows at the half's FASTA path), then write the merged FASTA as the
first half's contents followed by the second half's and delete the two
intermediate FASTA files. -/
def mainTrainBranch (data : List Row) (pipeline : List Row → String)
    (fs : FS) : Except PyExc FS :=
  let half_index := data.length / 2
  let data_first_half := data.take half_index
  let data_second_half := data.drop half_index
  let fs1 := fsWrite fs trainFastaFirst (pipeline data_first_half)
  let fs2 := fsWrite fs1 trainFastaSecond (pipeline data_second_half)
  match fsRead fs2 trainFastaFirst with
  | .error e => .error e
  | .ok c1 =>
    match fsRead fs2 trainFastaSecond with
    | .error e => .error e
    | .ok c2 =>
      let fs3 := fsWrite fs2 trainFastaFinal (c1 ++ c2)
      match fsRemove fs3 trainFastaFirst with
      | .error e => .error e
      | .ok fs4 => fsRemove fs4 trainFastaSecond

/-! ## `ann_TM_Vec.py` — `bm_generator`

`bm_generator(X_t, y_t, batch_size)` is an infinite generator with a
cursor `val` persisting across batches: each sample first resets `val` to
0 when it has reached `len(X_t)`, then takes `X_t[val]` and the one-hot
encoding of `y_t[val]` and increments `val`.  We model the production of
one batch from a given cursor (`bmSamples`), the cursor after `k` batches
(`bmState`), and the `k`-th yielded batch (`bmBatch`). -/

/-- `y_enc = np.zeros((num_classes)); y_enc[c] = 1`: raises `IndexError`
when `c` is out of range. -/
def npZerosSet (num_classes c : Nat) : Except PyExc (List Nat) :=
  if c < num_classes then .ok ((List.replicate num_classes 0).set c 1)
  else .error (.indexError "index out of bounds")

/-- Produce `count` samples of one batch starting from cursor `val`:
returns the samples (data point paired with one-hot label vector) and the
cursor after the batch. -/
def bmSamples {E : Type} (X : List E) (y : List Nat) (num_classes : Nat) :
    Nat → Nat → Except PyExc (List (E × List Nat) × Nat)
  | val, 0 => .ok ([], val)
  | val, count + 1 =>
    let v := if val = X.length then 0 else val
    match X[v]?, y[v]? with
    | some x, some c =>
      match npZerosSet num_classes c with
      | .error e => .error e
      | .ok enc =>
        match bmSamples X y num_classes (v + 1) count with
        | .error e => .error e
        | .ok sf => .ok ((x, enc) :: sf.1, sf.2)
    | _, _ => .error (.indexError "list index out of range")

/-- Cursor value of `bm_generator` before the `k`-th batch (`val` starts
at 0 and persists across batches). -/
def bmState {E : Type} (X : List E) (y : List Nat)
    (num_classes batch_size : Nat) : Nat → Except PyExc Nat
  | 0 => .ok 0
  | k + 1 =>
    match bmState X y num_classes batch_size k with
    | .error e => .error e
    | .ok val =>
      match bmSamples X y num_classes val batch_size with
      | .error e => .error e
      | .ok sf => .ok sf.2

/-- The `k`-th batch yielded by `bm_generator`. -/
def bmBatch {E : Type} (X : List E) (y : List Nat)
    (num_classes batch_size k : Nat) :
    Except PyExc (List (E × List Nat)) :=
  match bmState X y num_classes batch_size k with
  | .error e => .error e
  | .ok val =>
    match bmSamples X y num_classes val batch_size with
    | .error e => .error e
    | .ok sf => .ok sf.1

/-! ## Theorems -/

/-- C5: for every invocation of `predict_embed.py` with
`--input_type AA+3Di`, `main` calls `embed_sequence` and then evaluates
`args.pdb_path`, an attribute the argument parser never defines, so the
invocation raises `AttributeError` and `embed_3Di` is never reached. -/
theorem predict_embed_AA3Di_raises (a : Args) (h : a.input_type = "AA+3Di") :
    predictEmbedMain a =
      ([Step.embedSeq], .error (.attributeError "pdb_path")) ∧
    Step.embed3Di ∉ (predictEmbedMain a).1 := by
  have heq : predictEmbedMain a =
      ([Step.embedSeq], .error (.attributeError "pdb_path")) := by
    unfold predictEmbedMain pyGetattr
    rw [h]
    rw [if_neg (by decide), if_pos rfl, if_neg (by decide), if_neg (by decide)]
  refine ⟨heq, ?_⟩
  rw [heq]
  simp

/-- Witness for C5 at a concrete argument namespace. -/
theorem predict_embed_AA3Di_raises_witness :
    predictEmbedMain ⟨"ProstT5", "AA+3Di"⟩ =
      ([Step.embedSeq], .error (.attributeError "pdb_path")) ∧
    Step.embed3Di ∉ (predictEmbedMain ⟨"ProstT5", "AA+3Di"⟩).1 :=
  predict_embed_AA3Di_raises ⟨"ProstT5", "AA+3Di"⟩ rfl

/-- C6: in `logreg_prott5.py`, assuming the labels CSV of a split has one
row per embedding of the SF archive, the assembled split satisfies
`len(X) == len(y)`, the first `len(x_sf)` samples carry the CSV labels in
order, and the remaining samples are the `other` archive's rows labelled
`"other"`. -/
theorem logreg_split_alignment {E : Type} (y_sf : List String)
    (x_sf x_other : List E) (h : y_sf.length = x_sf.length) :
    (buildSplit y_sf x_sf x_other).1.length =
      (buildSplit y_sf x_sf x_other).2.length ∧
    (∀ i, i < x_sf.length →
      (buildSplit y_sf x_sf x_other).1[i]? = x_sf[i]? ∧
      (buildSplit y_sf x_sf x_other).2[i]? = y_sf[i]?) ∧
    (∀ j, j < x_other.length →
      (buildSplit y_sf x_sf x_other).1[x_sf.length + j]? = x_other[j]? ∧
      (buildSplit y_sf x_sf x_other).2[x_sf.length + j]? = some "other") := by
  refine ⟨by simp [buildSplit, h], fun i hi => ⟨?_, ?_⟩, fun j hj => ⟨?_, ?_⟩⟩
  · exact List.getElem?_append_left hi
  · exact List.getElem?_append_left (h ▸ hi)
  · simp only [buildSplit]
    rw [List.getElem?_append_right (by omega)]
    simp
  · simp only [buildSplit]
    rw [List.getElem?_append_right (by omega), h]
    simp [hj]

/-- Witness for C6 at concrete archives. -/
theorem logreg_split_alignment_witness :
    (buildSplit ["a.1"] [10] [20, 30]).1.length =
      (buildSplit ["a.1"] [10] [20, 30]).2.length ∧
    (∀ i, i < [10].length →
      (buildSplit ["a.1"] [10] [20, 30]).1[i]? = [10][i]? ∧
      (buildSplit ["a.1"] [10] [20, 30]).2[i]? = ["a.1"][i]?) ∧
    (∀ j, j < [20, 30].length →
      (buildSplit ["a.1"] [10] [20, 30]).1[[10].length + j]? = [20, 30][j]? ∧
      (buildSplit ["a.1"] [10] [20, 30]).2[[10].length + j]? = some "other") :=
  logreg_split_alignment ["a.1"] [10] [20, 30] rfl

/-- The only exception `extract_sequence_from_pdb` raises is the
chain-not-found `ValueError`. -/
lemma extract_error_shape {s : PDBStructure} {chain_id : Char}
    {model_id : Int} {e : PyExc}
    (h : extract_sequence_from_pdb s chain_id model_id = .error e) :
    e = .valueError "Chain of model not found in PDB file" := by
  simp only [extract_sequence_from_pdb] at h
  split at h
  · cases h
  · cases h
    rfl

/-- `compare_sequences` is sequence equality. -/
lemma compare_sequences_iff (a b : List Char) :
    compare_sequences a b = true ↔ a = b := by
  simp [compare_sequences]

/-- C1: whenever `trim_pdb` returns normally, the sequence extracted from
the written trimmed PDB file (one-letter codes of the standard residues
of chain `chain_id` in model `model_id`, in chain order) equals
`sequence` with every `'X'` removed; whenever that equality fails,
`trim_pdb` raises `ValueError` instead of returning. -/
theorem trim_pdb_verified (p : String) (s : PDBStructure)
    (sequence : List Char) (chain_id : Char) (model_id : Int) :
    (∀ pt t, trim_pdb p s sequence chain_id model_id = .ok (pt, t) →
      extract_sequence_from_pdb t chain_id model_id =
        .ok (clean_sequence sequence)) ∧
    (extract_sequence_from_pdb
        (writeTrimmed s (keptResidues s sequence chain_id model_id))
        chain_id model_id ≠ .ok (clean_sequence sequence) →
      ∃ msg, trim_pdb p s sequence chain_id model_id =
        .error (.valueError msg)) := by
  constructor
  · intro pt t hok
    simp only [trim_pdb] at hok
    split at hok
    · cases hok
    · next pdbSeq heq =>
      split at hok
      · next hcomp =>
        injection hok with h
        injection h with h1 h2
        subst h2
        rw [heq, (compare_sequences_iff _ _).mp hcomp]
      · cases hok
  · intro hne
    cases hex : extract_sequence_from_pdb
        (writeTrimmed s (keptResidues s sequence chain_id model_id))
        chain_id model_id with
    | error e =>
      refine ⟨"Chain of model not found in PDB file", ?_⟩
      simp only [trim_pdb, hex]
      rw [extract_error_shape hex]
    | ok pdbSeq =>
      have hc : ¬ compare_sequences (clean_sequence sequence) pdbSeq = true := by
        intro hc
        exact hne (hex.trans (by rw [(compare_sequences_iff _ _).mp hc]))
      refine ⟨"Sequence mismatch", ?_⟩
      simp only [trim_pdb, hex]
      rw [if_neg hc]

/-- A one-model, one-chain structure used as a concrete witness input. -/
def pdbExample : PDBStructure :=
  ⟨[⟨0, [⟨'A', [⟨'M', true⟩, ⟨'K', true⟩]⟩]⟩]⟩

/-- Witness for C1 at a concrete structure and sequence. -/
theorem trim_pdb_verified_witness :
    extract_sequence_from_pdb pdbExample 'A' 0 =
      .ok (clean_sequence ['M', 'K']) :=
  (trim_pdb_verified "p.pdb" pdbExample ['M', 'K'] 'A' 0).1
    (trimmedPath "p.pdb") pdbExample (by rfl)

/-- A concrete well-formed row: domain `1abcA02` (PDB id `1abc`, chain
`A`, model `02`). -/
def rowExample : Row :=
  ⟨"7", ['M', 'K'], ['1', 'a', 'b', 'c', 'A', '0', '2']⟩

/-- A concrete row whose domain has only 4 characters. -/
def rowShortDomain : Row :=
  ⟨"9", ['M'], ['1', 'a', 'b', 'c']⟩

/-- C2: for a row with a well-formed `Domain`, any exception raised
inside the `try` block of `download_and_trim_pdb` (an HTTP error from
the download, a `ValueError` from sequence verification, or any other
exception) is caught, and the function returns the record
`{sequence_id: row id, pdb_file: None}` instead of propagating. -/
theorem download_and_trim_pdb_catches (row : Row)
    (http : Except PyExc PDBStructure) (output_dir : String)
    (chain : Char) (model_id : Int)
    (hc : pyIndex row.domain 4 = .ok chain)
    (hm : pyInt (row.domain.drop 5) = .ok model_id)
    (hraise : tryBlockRaises row http output_dir chain model_id) :
    (download_and_trim_pdb row http output_dir).1 = .ok ⟨row.id, none⟩ := by
  simp only [download_and_trim_pdb, hc, hm]
  cases http with
  | error e => rfl
  | ok s =>
    simp only [tryBlockRaises] at hraise
    obtain ⟨e, htrim⟩ := hraise
    simp only [htrim]

/-- Witness for C2: a well-formed row whose download fails with an HTTP
error yields the missing-result record. -/
theorem download_and_trim_pdb_catches_witness :
    (download_and_trim_pdb rowExample (.error (.httpError "404"))
      "./data/pdb_files/Test").1 = .ok ⟨"7", none⟩ :=
  download_and_trim_pdb_catches rowExample (.error (.httpError "404"))
    "./data/pdb_files/Test" 'A' 2 rfl rfl trivial

/-- If a malformed download outcome sits in the completion-ordered task
list, result collection propagates an exception. -/
lemma collectResults_error {l : List (Except PyExc DownloadRecord)}
    {e : PyExc} (h : Except.error e ∈ l) :
    ∃ e2, collectResults l = .error e2 := by
  induction l with
  | nil => cases h
  | cons x rest ih =>
    cases h with
    | head => exact ⟨e, rfl⟩
    | tail _ hmem =>
      cases x with
      | error e2 => exact ⟨e2, rfl⟩
      | ok rec =>
        obtain ⟨e2, he2⟩ := ih hmem
        exact ⟨e2, by simp only [collectResults, he2]⟩

/-- A row whose domain fails to parse makes `download_and_trim_pdb`
propagate an exception (the parse happens before the `try` block). -/
lemma download_error_of_malformed (row : Row)
    (http : Except PyExc PDBStructure) (output_dir : String)
    (h : ¬ wellFormedDomain row) :
    ∃ e, (download_and_trim_pdb row http output_dir).1 = .error e := by
  cases hidx : pyIndex row.domain 4 with
  | error e => exact ⟨e, by simp only [download_and_trim_pdb, hidx]⟩
  | ok c =>
    cases hint : pyInt (row.domain.drop 5) with
    | error e =>
      exact ⟨e, by simp only [download_and_trim_pdb, hidx, hint]⟩
    | ok m =>
      exact absurd ⟨by rw [hidx]; rfl, by rw [hint]; rfl⟩ h

/-- C7: a row whose `Domain` has fewer than 5 characters raises
`IndexError` at `domain[4]`, one whose characters from index 5 onward do
not parse as an integer raises `ValueError` at `int(domain[5:])` — both
before the `try` block, so the exception propagates out of
`future.result()` in `process_dataset` instead of being caught and
recorded as a missing result. -/
theorem malformed_domain_propagates (row : Row)
    (http : Except PyExc PDBStructure) (output_dir : String) :
    (row.domain.length < 5 →
      (download_and_trim_pdb row http output_dir).1 =
        .error (.indexError "string index out of range")) ∧
    (∀ e, 5 ≤ row.domain.length → pyInt (row.domain.drop 5) = .error e →
      (download_and_trim_pdb row http output_dir).1 = .error e) ∧
    (∀ order htt r, r ∈ order → ¬ wellFormedDomain r →
      ∃ e, processDatasetResults order htt output_dir = .error e) := by
  refine ⟨fun hlen => ?_, fun e hlen hint => ?_, fun order htt r hmem hwf => ?_⟩
  · simp only [download_and_trim_pdb, pyIndex,
      dif_neg (by omega : ¬ 4 < row.domain.length)]
  · have hidx : pyIndex row.domain 4 =
        .ok (row.domain.get ⟨4, by omega⟩) := dif_pos (by omega)
    simp only [download_and_trim_pdb, hidx, hint]
  · obtain ⟨e, he⟩ := download_error_of_malformed r (htt r) output_dir hwf
    simp only [processDatasetResults]
    refine collectResults_error (e := e) ?_
    rw [← he]
    exact List.mem_map_of_mem _ hmem

/-- Witness for C7: a single-row run over a 4-character domain aborts
result collection with a propagated exception. -/
theorem malformed_domain_propagates_witness :
    ∃ e, processDatasetResults [rowShortDomain]
      (fun _ => .error (.httpError "x")) "./data/pdb_files/Test" =
        .error e :=
  (malformed_domain_propagates rowShortDomain
      (.error (.httpError "x")) "./data/pdb_files/Test").2.2
    [rowShortDomain] (fun _ => .error (.httpError "x")) rowShortDomain
    (by simp) (by decide)

/-- Each `download_and_trim_pdb` call issues at most one HTTP GET. -/
lemma download_GET_le_one (row : Row) (http : Except PyExc PDBStructure)
    (output_dir : String) :
    (download_and_trim_pdb row http output_dir).2 ≤ 1 := by
  unfold download_and_trim_pdb
  cases pyIndex row.domain 4 with
  | error e => simp
  | ok chain =>
    cases pyInt (row.domain.drop 5) with
    | error e => simp
    | ok model_id =>
      cases http with
      | error e => simp
      | ok s =>
        cases htr : trim_pdb (pdbFilePath output_dir row.id
            (row.domain.take 4)) s (clean_sequence row.sequence) chain
            model_id <;> simp [htr]

/-- C8: per run of `process_dataset`, the HTTP GET for a row's PDB file
is issued at most once per row — a failed download is never re-attempted
and the row is recorded with `pdb_file` `None`. -/
theorem http_get_at_most_once (row : Row)
    (http : Except PyExc PDBStructure) (output_dir : String) :
    (download_and_trim_pdb row http output_dir).2 ≤ 1 ∧
    (∀ order htt, processDatasetGETCount order htt output_dir ≤
      order.length) ∧
    (∀ e chain model_id, pyIndex row.domain 4 = .ok chain →
      pyInt (row.domain.drop 5) = .ok model_id → http = .error e →
      download_and_trim_pdb row http output_dir = (.ok ⟨row.id, none⟩, 1)) := by
  refine ⟨download_GET_le_one row http output_dir, fun order htt => ?_,
    fun e chain model_id hc hm he => ?_⟩
  · unfold processDatasetGETCount
    calc (order.map (fun r =>
          (download_and_trim_pdb r (htt r) output_dir).2)).sum
        ≤ (order.map (fun r =>
          (download_and_trim_pdb r (htt r) output_dir).2)).length • 1 := by
          refine List.sum_le_card_nsmul _ 1 ?_
          intro x hx
          obtain ⟨r, _, rfl⟩ := List.mem_map.mp hx
          exact download_GET_le_one r (htt r) output_dir
      _ = order.length := by simp
  · simp only [download_and_trim_pdb, hc, hm, he]

/-- Witness for C8: one failing download on a well-formed row — exactly
one GET, recorded as a missing result. -/
theorem http_get_at_most_once_witness :
    download_and_trim_pdb rowExample (.error (.httpError "404"))
      "./data/pdb_files/Test" = (.ok ⟨"7", none⟩, 1) :=
  (http_get_at_most_once rowExample (.error (.httpError "404"))
      "./data/pdb_files/Test").2.2 (.httpError "404") 'A' 2 rfl rfl rfl

/-- A well-formed row always yields an `.ok` record carrying the row's
id, whatever the download outcome. -/
lemma download_ok_of_wellFormed (row : Row)
    (http : Except PyExc PDBStructure) (output_dir : String)
    (hwf : wellFormedDomain row) :
    ∃ rec, (download_and_trim_pdb row http output_dir).1 = .ok rec ∧
      rec.sequence_id = row.id := by
  obtain ⟨h1, h2⟩ := hwf
  cases hidx : pyIndex row.domain 4 with
  | error e => rw [hidx] at h1; cases h1
  | ok c =>
    cases hint : pyInt (row.domain.drop 5) with
    | error e => rw [hint] at h2; cases h2
    | ok m =>
      cases http with
      | error e =>
        exact ⟨⟨row.id, none⟩, by simp only [download_and_trim_pdb, hidx, hint], rfl⟩
      | ok s =>
        cases htr : trim_pdb (pdbFilePath output_dir row.id
            (row.domain.take 4)) s (clean_sequence row.sequence) c m with
        | error e =>
          exact ⟨⟨row.id, none⟩,
            by simp only [download_and_trim_pdb, hidx, hint, htr], rfl⟩
        | ok pt =>
          exact ⟨⟨row.id, some pt.1⟩,
            by simp only [download_and_trim_pdb, hidx, hint, htr], rfl⟩

/-- Collecting all-ok tasks yields one record per task, ids in task
order. -/
lemma collectResults_ok_map {rows : List Row}
    {f : Row → Except PyExc DownloadRecord}
    (h : ∀ r ∈ rows, ∃ rec, f r = .ok rec ∧ rec.sequence_id = r.id) :
    ∃ recs, collectResults (rows.map f) = .ok recs ∧
      recs.map (fun rec => rec.sequence_id) = rows.map (fun r => r.id) := by
  induction rows with
  | nil => exact ⟨[], rfl, rfl⟩
  | cons r rest ih =>
    obtain ⟨rec, hrec, hid⟩ := h r (List.mem_cons_self r rest)
    obtain ⟨recs, hrecs, hids⟩ := ih (fun r2 hr2 => h r2 (List.mem_cons_of_mem r hr2))
    refine ⟨rec :: recs, ?_, ?_⟩
    · simp only [List.map_cons, collectResults, hrec, hrecs]
    · simp [hid, hids]

/-- C10: with every row's `Domain` well-formed, `process_dataset`
collects exactly one record per input row (whatever the completion
order, a permutation of the rows), each record carrying its row's
`sequence_id`; and the worker pool is capped at 20. -/
theorem process_dataset_one_record_per_row (order rows : List Row)
    (http : Row → Except PyExc PDBStructure) (output_dir : String)
    (hperm : order.Perm rows)
    (hwf : ∀ r ∈ rows, wellFormedDomain r) :
    max_workers = 20 ∧
    ∃ recs, processDatasetResults order http output_dir = .ok recs ∧
      recs.length = rows.length ∧
      recs.map (fun rec => rec.sequence_id) = order.map (fun r => r.id) ∧
      (recs.map (fun rec => rec.sequence_id)).Perm
        (rows.map (fun r => r.id)) := by
  obtain ⟨recs, hrecs, hids⟩ := collectResults_ok_map
    (f := fun r => (download_and_trim_pdb r (http r) output_dir).1)
    (fun r hr => download_ok_of_wellFormed r (http r) output_dir
      (hwf r (hperm.mem_iff.mp hr)))
  refine ⟨rfl, recs, hrecs, ?_, hids, ?_⟩
  · have := congrArg List.length hids
    simpa using this.trans (by simp [hperm.length_eq])
  · rw [hids]
    exact hperm.map (fun r => r.id)

/-- Witness for C10 at a one-row dataset. -/
theorem process_dataset_one_record_per_row_witness :
    max_workers = 20 ∧
    ∃ recs, processDatasetResults [rowExample]
        (fun _ => .error (.httpError "404")) "./data/pdb_files/Test" =
          .ok recs ∧
      recs.length = [rowExample].length ∧
      recs.map (fun rec => rec.sequence_id) =
        [rowExample].map (fun r => r.id) ∧
      (recs.map (fun rec => rec.sequence_id)).Perm
        ([rowExample].map (fun r => r.id)) :=
  process_dataset_one_record_per_row [rowExample] [rowExample]
    (fun _ => .error (.httpError "404")) "./data/pdb_files/Test"
    (List.Perm.refl _) (by decide)

/-- C4: for the Train dataset, `main` splits the data into the first
`len(data) // 2` rows and the rest — two halves whose concatenation is
the whole dataset — runs the pipeline on each half separately, writes
the final Train FASTA as the first half's FASTA contents followed by the
second half's, and deletes the two intermediate FASTA files. -/
theorem main_train_split_merge (data : List Row) (pipeline : List Row → String)
    (fs : FS) :
    data.take (data.length / 2) ++ data.drop (data.length / 2) = data ∧
    (data.take (data.length / 2)).length = data.length / 2 ∧
    (data.drop (data.length / 2)).length = data.length - data.length / 2 ∧
    ∃ fs2, mainTrainBranch data pipeline fs = .ok fs2 ∧
      fsRead fs2 trainFastaFinal =
        .ok (pipeline (data.take (data.length / 2)) ++
          pipeline (data.drop (data.length / 2))) ∧
      fsExists fs2 trainFastaFirst = false ∧
      fsExists fs2 trainFastaSecond = false := by
  refine ⟨List.take_append_drop _ _, ?_, List.length_drop _ _, ?_⟩
  · rw [List.length_take]
    exact Nat.min_eq_left (Nat.div_le_self _ _)
  · refine ⟨(trainFastaFinal, pipeline (data.take (data.length / 2)) ++
      pipeline (data.drop (data.length / 2))) ::
      fsErase (fsErase fs trainFastaFirst) trainFastaSecond, ?_, ?_, ?_, ?_⟩
    · simp [mainTrainBranch, fsWrite, fsRead, fsRemove, fsExists, fsErase,
        trainFastaFirst, trainFastaSecond, trainFastaFinal, List.filter]
    · simp [fsRead, trainFastaFinal]
    · simp [fsExists, fsErase, trainFastaFirst, trainFastaSecond,
        trainFastaFinal, List.any_filter, List.mem_filter]
    · simp [fsExists, fsErase, trainFastaFirst, trainFastaSecond,
        trainFastaFinal, List.any_filter, List.mem_filter]
      intro a b _ h2 _
      exact h2

/-- Counterexample to C3: with a `foldseek createdb` that exits non-zero
having created no files, `run_command` raises, the `except` block catches
it — but the removal statements after the `try`/`except` then raise
`FileNotFoundError` on the missing intermediate database file, so
`process_dataset` aborts instead of running to completion. -/
theorem foldseek_failure_cleanup_aborts :
    run_command ⟨1, "", "err"⟩ = .error (.exception "Command failed") ∧
    processDatasetTail (fun _ fs => (⟨1, "", "err"⟩, fs))
      "./data/pdb_files/Test" "./data/pdb_files/Test_queryDB"
      "./data/Dataset/3Di/Test.fasta" [] =
      .error (.fileNotFoundError "./data/pdb_files/Test_queryDB_a3m") :=
  ⟨rfl, rfl⟩

/-- `os.remove` succeeds exactly on existing paths. -/
lemma fsRemove_of_exists {fs : FS} {p : String} (h : fsExists fs p = true) :
    fsRemove fs p = .ok (fsErase fs p) := by
  simp [fsRemove, h]

/-- C3 amended: `run_command` raises an exception whenever the subprocess
exits non-zero, and `process_dataset` catches any exception from the
three foldseek commands and proceeds to the removal statements; the
removal phase — deleting the intermediate database files and then every
downloaded PDB file — completes provided each `os.remove` target exists
when it is removed (which a failed foldseek command may violate). -/
theorem run_command_raises_cleanup_guarded
    (exec : String → FS → CmdResult × FS)
    (output_dir query_db query_db_ss_fasta : String) (fs : FS)
    (h1 : fsExists (foldseekPhase exec output_dir query_db
      query_db_ss_fasta fs) (query_db ++ "_a3m") = true)
    (h2 : fsExists (fsErase (foldseekPhase exec output_dir query_db
      query_db_ss_fasta fs) (query_db ++ "_a3m")) (query_db ++ "_ss") = true)
    (h3 : fsExists (fsErase (fsErase (foldseekPhase exec output_dir query_db
      query_db_ss_fasta fs) (query_db ++ "_a3m")) (query_db ++ "_ss"))
      (query_db ++ "_ss_h") = true)
    (h4 : fsExists (fsErase (fsErase (fsErase (foldseekPhase exec output_dir
      query_db query_db_ss_fasta fs) (query_db ++ "_a3m"))
      (query_db ++ "_ss")) (query_db ++ "_ss_h")) (query_db ++ "_h") = true) :
    (∀ r : CmdResult, r.returncode ≠ 0 →
      run_command r = .error (.exception "Command failed")) ∧
    processDatasetTail exec output_dir query_db query_db_ss_fasta fs =
      .ok (fsRemoveDirFiles (fsErase (fsErase (fsErase (fsErase
        (foldseekPhase exec output_dir query_db query_db_ss_fasta fs)
        (query_db ++ "_a3m")) (query_db ++ "_ss")) (query_db ++ "_ss_h"))
        (query_db ++ "_h")) output_dir) ∧
    ∀ e ∈ fsRemoveDirFiles (fsErase (fsErase (fsErase (fsErase
        (foldseekPhase exec output_dir query_db query_db_ss_fasta fs)
        (query_db ++ "_a3m")) (query_db ++ "_ss")) (query_db ++ "_ss_h"))
        (query_db ++ "_h")) output_dir,
      ¬ e.1.startsWith (output_dir ++ "/") := by
  refine ⟨fun r hr => by simp [run_command, hr], ?_, ?_⟩
  · simp only [processDatasetTail, cleanupPhase, fsRemove_of_exists h1,
      fsRemove_of_exists h2, fsRemove_of_exists h3, fsRemove_of_exists h4]
  · intro e he
    simp only [fsRemoveDirFiles, List.mem_filter] at he
    simpa using he.2

/-- A failing subprocess oracle that leaves the filesystem unchanged. -/
def failingExec : String → FS → CmdResult × FS :=
  fun _ fs => (⟨1, "", "err"⟩, fs)

/-- A filesystem that already holds the four intermediate database files
and one downloaded PDB file. -/
def fsWithDb : FS :=
  [("qdb_a3m", ""), ("qdb_ss", ""), ("qdb_ss_h", ""), ("qdb_h", ""),
   ("od/1_1abc.pdb", "ATOM")]

/-- Witness for the amended C3: even with all three foldseek commands
failing, cleanup completes once the database files exist. -/
theorem run_command_raises_cleanup_guarded_witness :
    (∀ r : CmdResult, r.returncode ≠ 0 →
      run_command r = .error (.exception "Command failed")) ∧
    processDatasetTail failingExec "od" "qdb" "f.fasta" fsWithDb =
      .ok (fsRemoveDirFiles (fsErase (fsErase (fsErase (fsErase
        (foldseekPhase failingExec "od" "qdb" "f.fasta" fsWithDb)
        ("qdb" ++ "_a3m")) ("qdb" ++ "_ss")) ("qdb" ++ "_ss_h"))
        ("qdb" ++ "_h")) "od") ∧
    ∀ e ∈ fsRemoveDirFiles (fsErase (fsErase (fsErase (fsErase
        (foldseekPhase failingExec "od" "qdb" "f.fasta" fsWithDb)
        ("qdb" ++ "_a3m")) ("qdb" ++ "_ss")) ("qdb" ++ "_ss_h"))
        ("qdb" ++ "_h")) "od",
      ¬ e.1.startsWith ("od" ++ "/") :=
  run_command_raises_cleanup_guarded failingExec "od" "qdb" "f.fasta"
    fsWithDb rfl rfl rfl rfl

/-- One batch of `bm_generator` from a cursor `val` congruent to the
virtual position `t`: the samples walk `X` cyclically from `t mod n`. -/
lemma bmSamples_spec {E : Type} (X : List E) (y : List Nat) (nc : Nat)
    (hn : 0 < X.length) (hy : y.length = X.length)
    (hc : ∀ c ∈ y, c < nc) :
    ∀ count val t, val ≤ X.length → val % X.length = t % X.length →
    ∃ samples fin,
      bmSamples X y nc val count = .ok (samples, fin) ∧
      samples.length = count ∧ fin ≤ X.length ∧
      fin % X.length = (t + count) % X.length ∧
      ∀ j, j < count → ∃ x c,
        X[(t + j) % X.length]? = some x ∧
        y[(t + j) % X.length]? = some c ∧
        samples[j]? = some (x, (List.replicate nc 0).set c 1) := by
  intro count
  induction count with
  | zero =>
    intro val t hval hmod
    exact ⟨[], val, rfl, rfl, hval, by simpa using hmod,
      fun j hj => absurd hj (Nat.not_lt_zero j)⟩
  | succ k ih =>
    intro val t hval hmod
    have hv : (if val = X.length then 0 else val) = t % X.length := by
      by_cases h : val = X.length
      · rw [if_pos h]
        rw [h, Nat.mod_self] at hmod
        omega
      · rw [if_neg h]
        have hlt : val < X.length := lt_of_le_of_ne hval h
        rw [← hmod, Nat.mod_eq_of_lt hlt]
    have htlt : t % X.length < X.length := Nat.mod_lt _ hn
    have htylt : t % X.length < y.length := by rw [hy]; exact htlt
    obtain ⟨xv, hx⟩ : ∃ xv, X[t % X.length]? = some xv :=
      ⟨_, List.getElem?_eq_getElem htlt⟩
    obtain ⟨cv, hyget⟩ : ∃ cv, y[t % X.length]? = some cv :=
      ⟨_, List.getElem?_eq_getElem htylt⟩
    have hcy : cv < nc := hc cv (List.getElem?_mem hyget)
    have henc : npZerosSet nc cv =
        .ok ((List.replicate nc 0).set cv 1) := by
      simp [npZerosSet, hcy]
    obtain ⟨samples, fin, heq, hlen, hfle, hfmod, hspec⟩ :=
      ih (t % X.length + 1) (t + 1) (by omega)
        (Nat.ModEq.add_right 1 (Nat.mod_modEq t X.length))
    refine ⟨(xv, (List.replicate nc 0).set cv 1) :: samples,
      fin, ?_, by simp [hlen], hfle, ?_, ?_⟩
    · simp only [bmSamples, hv, hx, hyget, henc, heq]
    · rw [hfmod]
      congr 1
      omega
    · intro j hj
      cases j with
      | zero =>
        exact ⟨xv, cv, by simpa using hx, by simpa using hyget, by simp⟩
      | succ j2 =>
        obtain ⟨x2, c2, hx2, hy2, hs2⟩ := hspec j2 (by omega)
        refine ⟨x2, c2, ?_, ?_, ?_⟩
        · rw [show t + (j2 + 1) = (t + 1) + j2 by omega]
          exact hx2
        · rw [show t + (j2 + 1) = (t + 1) + j2 by omega]
          exact hy2
        · simpa using hs2

/-- The cursor of `bm_generator` before the `k`-th batch is congruent to
`k * batch_size` modulo `len(X_t)`. -/
lemma bmState_spec {E : Type} (X : List E) (y : List Nat) (nc b : Nat)
    (hn : 0 < X.length) (hy : y.length = X.length)
    (hc : ∀ c ∈ y, c < nc) :
    ∀ k, ∃ val, bmState X y nc b k = .ok val ∧ val ≤ X.length ∧
      val % X.length = (k * b) % X.length := by
  intro k
  induction k with
  | zero => exact ⟨0, rfl, Nat.zero_le _, by simp⟩
  | succ k ih =>
    obtain ⟨val, hval, hle, hmod⟩ := ih
    obtain ⟨samples, fin, heq, _, hfle, hfmod, _⟩ :=
      bmSamples_spec X y nc hn hy hc b val (k * b) hle hmod
    refine ⟨fin, ?_, hfle, ?_⟩
    · simp only [bmState, hval, heq]
    · rw [hfmod]
      congr 1
      ring

/-- C9: for non-empty `X_t`, labels `y_t` of the same length (each
strictly below `num_classes`) and `batch_size ≥ 1`, `bm_generator`
yields only batches of exactly `batch_size` samples, the `j`-th sample
of the `k`-th batch being `X_t[(k*batch_size + j) mod n]` with the
one-hot label vector of length `num_classes` whose single 1 sits at
`y_t[(k*batch_size + j) mod n]`. -/
theorem bm_generator_batches {E : Type} (X : List E) (y : List Nat)
    (nc b k : Nat) (hn : 0 < X.length) (hy : y.length = X.length)
    (_hb : 1 ≤ b) (hc : ∀ c ∈ y, c < nc) :
    ∃ batch, bmBatch X y nc b k = .ok batch ∧ batch.length = b ∧
      ∀ j, j < b → ∃ x c,
        X[(k * b + j) % X.length]? = some x ∧
        y[(k * b + j) % X.length]? = some c ∧
        batch[j]? = some (x, (List.replicate nc 0).set c 1) ∧
        ((List.replicate nc 0).set c 1).length = nc := by
  obtain ⟨val, hval, hle, hmod⟩ := bmState_spec X y nc b hn hy hc k
  obtain ⟨samples, fin, heq, hlen, _, _, hspec⟩ :=
    bmSamples_spec X y nc hn hy hc b val (k * b) hle hmod
  refine ⟨samples, ?_, hlen, ?_⟩
  · simp only [bmBatch, hval, heq]
  · intro j hj
    obtain ⟨x, c, hx, hyg, hs⟩ := hspec j hj
    exact ⟨x, c, hx, hyg, hs, by simp⟩

/-- Witness for C9: the second batch of size 2 over a 3-element dataset
wraps around to the start. -/
theorem bm_generator_batches_witness :
    ∃ batch, bmBatch [10, 20, 30] [0, 1, 2] 3 2 1 = .ok batch ∧
      batch.length = 2 ∧
      ∀ j, j < 2 → ∃ x c,
        [10, 20, 30][(1 * 2 + j) % [10, 20, 30].length]? = some x ∧
        [0, 1, 2][(1 * 2 + j) % [10, 20, 30].length]? = some c ∧
        batch[j]? = some (x, (List.replicate 3 0).set c 1) ∧
        ((List.replicate 3 0).set c 1).length = 3 :=
  bm_generator_batches [10, 20, 30] [0, 1, 2] 3 2 1 (by decide) rfl
    (by decide) (by decide)

end CATHe
